import Mathlib

/-!
Verification of the satellite-analysis repository (candidate-ranking core).

The Python source `analyze_spacetrack_data.py` is shallowly embedded here:

- `angular_separation` (source lines 54-69) is translated literally over the
  real numbers: `np.radians`/`np.degrees` become multiplication by `pi / 180`
  and `180 / pi`, and the haversine intermediate `a` (line 66) is exposed as
  `haversine_a`.
- `find_smarter_every_days_satellite` (source lines 72-120) is embedded as a
  function from the list of orbital-element records to the list of candidates
  the routine ranks and prints (its top-5 output).  The external propagation
  capability (skyfield) is modelled by letting each record carry the
  topocentric observation (altitude, azimuth, slant range in km) that
  `(sat - JACKSON).at(FIRST_OBJECT).altaz()` would return for it, and a flag
  recording whether `EarthSatellite.from_omm` raises on the record
  (malformed elements).  The spec itself treats propagation as an external
  capability, so these are uninterpreted inputs of the embedding.
- The list comprehension on line 77 has no exception handler, so a raising
  record aborts the whole call: the embedding returns an `Option`, with
  `none` modelling the uncaught exception.
- Python `list.sort` is a stable sort on the `sep` key; it is embedded as
  `List.insertionSort` (stable, and extensionally equal to any stable sort).
- `process_tle_with_skyfield` (source lines 9-51) wraps each record in a
  `try`/`except` that logs and skips; its per-record evaluation (the skyfield
  call and the dictionary field accesses, both external) is modelled by a
  failure flag plus the values the successful path reads.
-/

namespace SpaceTrack

noncomputable section

/-- Degrees to radians, the embedding of `np.radians` (source line 60). -/
def radians (x : ℝ) : ℝ := x * (Real.pi / 180)

/-- Radians to degrees, the embedding of `np.degrees` (source line 69). -/
def degrees (x : ℝ) : ℝ := x * (180 / Real.pi)

/-- The haversine intermediate value `a` of source line 66:
`a = sin(dlat/2)**2 + cos(lat1)*cos(lat2)*sin(dlon/2)**2` with
`dlat = lat2 - lat1`, `dlon = lon2 - lon1` (lines 64-65), where the
latitudes and longitudes are the four inputs converted to radians. -/
def haversine_a (alt1 az1 alt2 az2 : ℝ) : ℝ :=
  Real.sin ((radians alt2 - radians alt1) / 2) ^ 2 +
    Real.cos (radians alt1) * Real.cos (radians alt2) *
      Real.sin ((radians az2 - radians az1) / 2) ^ 2

/-- Embedding of `angular_separation` (source lines 54-69):
`angular_distance = 2 * arcsin(sqrt(a))`, returned in degrees. -/
def angular_separation (alt1 az1 alt2 az2 : ℝ) : ℝ :=
  degrees (2 * Real.arcsin (Real.sqrt (haversine_a alt1 az1 alt2 az2)))

/-- A propagatable satellite model, characterised for this analysis by its
name and by the topocentric observation the external propagation capability
returns for it at the fixed instant `FIRST_OBJECT` relative to the fixed
observer `JACKSON` (source lines 98-100). -/
structure EarthSatellite where
  objectName : String
  altDeg : ℝ
  azDeg : ℝ
  distKm : ℝ

/-- An orbital-element record as consumed by the ranking routine.  The
element fields themselves are only ever passed to the external
`EarthSatellite.from_omm`; what the routine observes of a record is whether
that construction raises (`malformed`), and the observation data of the
resulting satellite model. -/
structure OmmRecord where
  objectName : String
  malformed : Bool
  altDeg : ℝ
  azDeg : ℝ
  distKm : ℝ

/-- The satellite model built from a record when construction succeeds. -/
def satOfRecord (r : OmmRecord) : EarthSatellite :=
  ⟨r.objectName, r.altDeg, r.azDeg, r.distKm⟩

/-- Embedding of the external `EarthSatellite.from_omm(ts, fields)` call
(source line 77): `none` models a raised exception on malformed elements. -/
def fromOmm (r : OmmRecord) : Option EarthSatellite :=
  if r.malformed then none else some (satOfRecord r)

/-- Embedding of the list comprehension
`sats = [EarthSatellite.from_omm(ts, fields) for fields in gp_data]`
(source line 77).  There is no exception handler around it, so one raising
record aborts the whole construction: the result is `none`. -/
def loadSats : List OmmRecord → Option (List EarthSatellite)
  | [] => some []
  | r :: rs => (fromOmm r).bind fun s => (loadSats rs).map fun ss => s :: ss

/-- The sun direction at C3 (source lines 89-90). -/
def SUN_ALT : ℝ := 57.0

/-- The sun azimuth at C3 (source line 90). -/
def SUN_AZ : ℝ := 209.2

/-- A ranked candidate: the dictionary built on source lines 108-110,
holding the separation, the satellite and its topocentric observation. -/
structure Candidate where
  sep : ℝ
  sat : EarthSatellite
  alt : ℝ
  az : ℝ
  distance : ℝ

/-- One iteration of the candidate loop (source lines 97-110): keep the
satellite only if `alt.degrees > 0 and distance.km < 10000` (line 104), in
which case the stored separation is computed from the sun direction by
`angular_separation(SUN_ALT, SUN_AZ, alt.degrees, az.degrees)` (line 107). -/
def evalCandidate (sat : EarthSatellite) : Option Candidate :=
  if 0 < sat.altDeg ∧ sat.distKm < 10000 then
    some ⟨angular_separation SUN_ALT SUN_AZ sat.altDeg sat.azDeg,
      sat, sat.altDeg, sat.azDeg, sat.distKm⟩
  else none

/-- The candidate list accumulated by the loop of source lines 97-110,
in input order. -/
def collectCandidates (sats : List EarthSatellite) : List Candidate :=
  sats.filterMap evalCandidate

/-- The comparison used by `candidates.sort(key=lambda x: x["sep"])`
(source line 112). -/
def sepLe (a b : Candidate) : Prop := a.sep ≤ b.sep

instance : IsTotal Candidate sepLe := ⟨fun a b => le_total a.sep b.sep⟩

instance : IsTrans Candidate sepLe := ⟨fun _ _ _ hab hbc => le_trans hab hbc⟩

instance : DecidableRel sepLe := fun a b => Classical.propDecidable (sepLe a b)

/-- Embedding of `candidates.sort(key=lambda x: x["sep"])` (source line
112).  Python `list.sort` is a stable sort ascending on the key; any stable
sort computes the same list, and `List.insertionSort` is stable. -/
def rankCandidates (cs : List Candidate) : List Candidate :=
  cs.insertionSort sepLe

/-- Embedding of `find_smarter_every_days_satellite` (source lines 72-120):
build the satellite models (an uncaught exception yields `none`), filter and
score them in input order, sort ascending by separation, and emit the first
five candidates (`candidates[:5]`, line 114). -/
def find_smarter_every_days_satellite (gp_data : List OmmRecord) :
    Option (List Candidate) :=
  (loadSats gp_data).map fun sats =>
    (rankCandidates (collectCandidates sats)).take 5

/-- The processed-satellite dictionary built on source lines 34-41. -/
structure SatelliteInfo where
  name : String
  noradId : String
  epoch : String
  latitude : ℝ
  longitude : ℝ
  elevation_km : ℝ

/-- A satellite record as consumed by `process_tle_with_skyfield`: the body
of the `try` block (source lines 26-43) calls the external propagation
(`sat.at(t)`, `geocentric.subpoint()`) and reads record fields; `evalFails`
records whether any of those raises, and the remaining fields are the values
the successful path reads. -/
structure TleSat where
  objectName : String
  noradId : String
  epoch : String
  evalFails : Bool
  latitude : ℝ
  longitude : ℝ
  elevation_km : ℝ

/-- Embedding of the `try` block body of source lines 26-43: `none` models
a raised exception (caught by the handler on lines 45-49, which logs and
skips the record). -/
def evalTleSat (sat : TleSat) : Option SatelliteInfo :=
  if sat.evalFails then none
  else some ⟨sat.objectName, sat.noradId, sat.epoch,
    sat.latitude, sat.longitude, sat.elevation_km⟩

/-- Embedding of `process_tle_with_skyfield` (source lines 9-51): each
record is evaluated inside a per-record `try`/`except`, so a failing record
is skipped and the loop continues with the remaining records. -/
def process_tle_with_skyfield : List TleSat → List SatelliteInfo
  | [] => []
  | sat :: rest =>
    match evalTleSat sat with
    | some info => info :: process_tle_with_skyfield rest
    | none => process_tle_with_skyfield rest

/-- The strict comparison on stored separations, used to reason about
sort results with pairwise-distinct keys. -/
def sepLt (a b : Candidate) : Prop := a.sep < b.sep

instance : IsAntisymm Candidate sepLt :=
  ⟨fun _ _ h1 h2 => absurd h2 (lt_asymm h1)⟩

/-- The candidate loop of source lines 97-110 as an explicit state
transformer over the satellite store: each iteration returns the satellite
exactly as the body leaves it in the store together with the extended
candidate accumulator.  The body (lines 98-110) only reads `sat` and
appends a freshly built dictionary to `candidates`; it contains no
assignment into `sat` or into the record it came from, so the stored
satellite is returned unchanged. -/
def rankLoop : List EarthSatellite → List Candidate →
    List EarthSatellite × List Candidate
  | [], acc => ([], acc)
  | sat :: rest, acc =>
    let acc2 := match evalCandidate sat with
      | some c => acc ++ [c]
      | none => acc
    let next := rankLoop rest acc2
    (sat :: next.1, next.2)

/-- The model-construction comprehension of source line 77 as an explicit
state transformer over the record store: `from_omm` reads the element
fields of each record and builds a fresh `EarthSatellite`; it writes
nothing back, so each stored record is returned unchanged. -/
def loadSatsStore : List OmmRecord →
    List OmmRecord × Option (List EarthSatellite)
  | [] => ([], some [])
  | r :: rs =>
    let rest := loadSatsStore rs
    (r :: rest.1, (fromOmm r).bind fun s => rest.2.map fun ss => s :: ss)

/-- The whole ranking routine in state-passing form: the first component is
the record store after the run, the second its output.  All derived
quantities (satellite models, observations, separations) live in the
output, never in the store. -/
def findWithStore (gp_data : List OmmRecord) :
    List OmmRecord × Option (List Candidate) :=
  let load := loadSatsStore gp_data
  (load.1, load.2.map fun sats =>
    (rankCandidates (rankLoop sats []).2).take 5)

/-- A TLE record whose per-record evaluation succeeds. -/
def tleGood : TleSat := ⟨"G", "100", "2024-01-01", false, 1, 2, 3⟩

/-- A TLE record whose per-record evaluation raises. -/
def tleBad : TleSat := ⟨"X", "200", "2024-01-01", true, 0, 0, 0⟩

/-! ### Concrete records used to exercise the routine -/

/-- A record whose model construction succeeds; its observation sits exactly
at the sun direction, well above the horizon and within range. -/
def recA : OmmRecord := ⟨"A", false, 57.0, 209.2, 500⟩

/-- A second passing record, observed at the zenith: its separation from the
sun direction is exactly 33 degrees. -/
def recB : OmmRecord := ⟨"B", false, 90, 0, 500⟩

/-- A passing record observed exactly at the sun direction, distinct from
`recA` only in its name: a separation tie. -/
def recTie : OmmRecord := ⟨"T", false, 57.0, 209.2, 500⟩

/-- A record whose model construction raises (malformed elements). -/
def recBad : OmmRecord := ⟨"BAD", true, 0, 0, 0⟩

def satA : EarthSatellite := satOfRecord recA

def satB : EarthSatellite := satOfRecord recB

def satTie : EarthSatellite := satOfRecord recTie

def candA : Candidate :=
  ⟨angular_separation SUN_ALT SUN_AZ satA.altDeg satA.azDeg,
    satA, satA.altDeg, satA.azDeg, satA.distKm⟩

def candB : Candidate :=
  ⟨angular_separation SUN_ALT SUN_AZ satB.altDeg satB.azDeg,
    satB, satB.altDeg, satB.azDeg, satB.distKm⟩

def candTie : Candidate :=
  ⟨angular_separation SUN_ALT SUN_AZ satTie.altDeg satTie.azDeg,
    satTie, satTie.altDeg, satTie.azDeg, satTie.distKm⟩

/-! ### Helper lemmas: the haversine at coincident points -/

/-- At coincident points the haversine intermediate is exactly zero. -/
theorem haversine_a_self (alt az : ℝ) : haversine_a alt az alt az = 0 := by
  unfold haversine_a
  simp

/-- The separation of a direction from itself is exactly zero. -/
theorem angular_separation_self (alt az : ℝ) :
    angular_separation alt az alt az = 0 := by
  unfold angular_separation degrees
  rw [haversine_a_self, Real.sqrt_zero, Real.arcsin_zero]
  ring

/-! ### Evaluation lemmas for the concrete records -/

theorem candA_sep : candA.sep = 0 := by
  show angular_separation SUN_ALT SUN_AZ satA.altDeg satA.azDeg = 0
  show angular_separation 57.0 209.2 57.0 209.2 = 0
  exact angular_separation_self 57.0 209.2

theorem candTie_sep : candTie.sep = 0 := by
  show angular_separation SUN_ALT SUN_AZ satTie.altDeg satTie.azDeg = 0
  show angular_separation 57.0 209.2 57.0 209.2 = 0
  exact angular_separation_self 57.0 209.2

/-- The separation of the zenith direction from the sun at altitude 57 is
exactly 33 degrees: the `cos(lat2)` factor vanishes at the zenith and the
formula collapses to the altitude difference. -/
theorem candB_sep : candB.sep = 33 := by
  show angular_separation SUN_ALT SUN_AZ satB.altDeg satB.azDeg = 33
  show angular_separation 57.0 209.2 90 0 = 33
  have pi_pos := Real.pi_pos
  unfold angular_separation haversine_a degrees radians
  have h90 : (90 : ℝ) * (Real.pi / 180) = Real.pi / 2 := by ring
  have harg : ((90 : ℝ) * (Real.pi / 180) - 57.0 * (Real.pi / 180)) / 2 =
      11 * Real.pi / 120 := by norm_num; ring
  rw [harg, h90, Real.cos_pi_div_two]
  have hlow : (0 : ℝ) ≤ 11 * Real.pi / 120 := by positivity
  have hhigh : 11 * Real.pi / 120 ≤ Real.pi / 2 := by nlinarith
  have hpi : 11 * Real.pi / 120 ≤ Real.pi := by nlinarith
  have hsin : (0 : ℝ) ≤ Real.sin (11 * Real.pi / 120) :=
    Real.sin_nonneg_of_nonneg_of_le_pi hlow hpi
  rw [mul_zero, zero_mul, add_zero, Real.sqrt_sq hsin,
    Real.arcsin_sin (by linarith) hhigh]
  field_simp
  ring

theorem fromOmm_recA : fromOmm recA = some satA := rfl

theorem fromOmm_recB : fromOmm recB = some satB := rfl

theorem fromOmm_recTie : fromOmm recTie = some satTie := rfl

theorem fromOmm_recBad : fromOmm recBad = none := rfl

theorem evalCandidate_satA : evalCandidate satA = some candA := by
  have h : 0 < satA.altDeg ∧ satA.distKm < 10000 := by
    norm_num [satA, satOfRecord, recA]
  unfold evalCandidate
  rw [if_pos h]
  rfl

theorem evalCandidate_satB : evalCandidate satB = some candB := by
  have h : 0 < satB.altDeg ∧ satB.distKm < 10000 := by
    norm_num [satB, satOfRecord, recB]
  unfold evalCandidate
  rw [if_pos h]
  rfl

theorem evalCandidate_satTie : evalCandidate satTie = some candTie := by
  have h : 0 < satTie.altDeg ∧ satTie.distKm < 10000 := by
    norm_num [satTie, satOfRecord, recTie]
  unfold evalCandidate
  rw [if_pos h]
  rfl

/-! ### Structural lemmas about the loading phase -/

/-- One malformed record makes the whole model-construction comprehension
raise: the result is `none`, whatever the other records are. -/
theorem loadSats_none {gp : List OmmRecord} (h : ∃ r ∈ gp, r.malformed = true) :
    loadSats gp = none := by
  induction gp with
  | nil => simp at h
  | cons r rs ih =>
    obtain ⟨x, hx, hmal⟩ := h
    rcases List.mem_cons.mp hx with rfl | hmem
    · simp [loadSats, fromOmm, hmal]
    · simp only [loadSats, ih ⟨x, hmem, hmal⟩]
      cases fromOmm r <;> rfl

/-- When every record is well formed, the comprehension returns the models
of all records in input order. -/
theorem loadSats_all_good {gp : List OmmRecord}
    (h : ∀ r ∈ gp, r.malformed = false) :
    loadSats gp = some (gp.map satOfRecord) := by
  induction gp with
  | nil => rfl
  | cons r rs ih =>
    have hr : r.malformed = false := h r (List.mem_cons_self r rs)
    simp only [loadSats, ih fun x hx => h x (List.mem_cons_of_mem r hx),
      fromOmm, hr, List.map_cons]
    rfl

/-- Any candidate produced by the loop body satisfies the keep-filter
strictly, and its stored separation is recomputed from its own altitude and
azimuth against the sun direction. -/
theorem mem_collectCandidates {c : Candidate} {sats : List EarthSatellite}
    (hc : c ∈ collectCandidates sats) :
    0 < c.alt ∧ c.distance < 10000 ∧
      c.sep = angular_separation SUN_ALT SUN_AZ c.alt c.az := by
  unfold collectCandidates at hc
  obtain ⟨sat, _, heval⟩ := List.mem_filterMap.mp hc
  unfold evalCandidate at heval
  by_cases h : 0 < sat.altDeg ∧ sat.distKm < 10000
  · rw [if_pos h] at heval
    cases heval
    exact ⟨h.1, h.2, rfl⟩
  · rw [if_neg h] at heval
    cases heval

/-- A satellite that fails the altitude bound or the range bound is
discarded by the loop body. -/
theorem evalCandidate_discard {sat : EarthSatellite}
    (h : sat.altDeg ≤ 0 ∨ 10000 ≤ sat.distKm) : evalCandidate sat = none := by
  unfold evalCandidate
  rw [if_neg]
  rcases h with h | h
  · exact fun hk => absurd hk.1 (not_lt.mpr h)
  · exact fun hk => absurd hk.2 (not_lt.mpr h)

/-- A stable sort leaves a two-element list in order when the first element
compares no greater than the second. -/
theorem rankCandidates_pair_of_le {a b : Candidate} (h : sepLe a b) :
    rankCandidates [a, b] = [a, b] := by
  unfold rankCandidates
  simp only [List.insertionSort, List.orderedInsert]
  rw [if_pos h]

/-! ### Evaluating the ranking routine on the concrete batches -/

theorem loadSats_pair : loadSats [recA, recB] = some [satA, satB] := rfl

theorem loadSats_tie_AT : loadSats [recA, recTie] = some [satA, satTie] := rfl

theorem loadSats_tie_TA : loadSats [recTie, recA] = some [satTie, satA] := rfl

theorem collect_pair : collectCandidates [satA, satB] = [candA, candB] := by
  unfold collectCandidates
  rw [List.filterMap_cons, evalCandidate_satA,
    List.filterMap_cons, evalCandidate_satB, List.filterMap_nil]

theorem collect_tie_AT : collectCandidates [satA, satTie] = [candA, candTie] := by
  unfold collectCandidates
  rw [List.filterMap_cons, evalCandidate_satA,
    List.filterMap_cons, evalCandidate_satTie, List.filterMap_nil]

theorem collect_tie_TA : collectCandidates [satTie, satA] = [candTie, candA] := by
  unfold collectCandidates
  rw [List.filterMap_cons, evalCandidate_satTie,
    List.filterMap_cons, evalCandidate_satA, List.filterMap_nil]

theorem collect_single_A : collectCandidates [satA] = [candA] := by
  unfold collectCandidates
  rw [List.filterMap_cons, evalCandidate_satA, List.filterMap_nil]

theorem find_pair :
    find_smarter_every_days_satellite [recA, recB] = some [candA, candB] := by
  unfold find_smarter_every_days_satellite
  rw [loadSats_pair]
  show some ((rankCandidates (collectCandidates [satA, satB])).take 5) = _
  rw [collect_pair, rankCandidates_pair_of_le]
  · rfl
  · show candA.sep ≤ candB.sep
    rw [candA_sep, candB_sep]
    norm_num

theorem find_tie_AT :
    find_smarter_every_days_satellite [recA, recTie] = some [candA, candTie] := by
  unfold find_smarter_every_days_satellite
  rw [loadSats_tie_AT]
  show some ((rankCandidates (collectCandidates [satA, satTie])).take 5) = _
  rw [collect_tie_AT, rankCandidates_pair_of_le]
  · rfl
  · show candA.sep ≤ candTie.sep
    rw [candA_sep, candTie_sep]

theorem find_tie_TA :
    find_smarter_every_days_satellite [recTie, recA] = some [candTie, candA] := by
  unfold find_smarter_every_days_satellite
  rw [loadSats_tie_TA]
  show some ((rankCandidates (collectCandidates [satTie, satA])).take 5) = _
  rw [collect_tie_TA, rankCandidates_pair_of_le]
  · rfl
  · show candTie.sep ≤ candA.sep
    rw [candA_sep, candTie_sep]

theorem find_single_A :
    find_smarter_every_days_satellite [recA] = some [candA] := by
  unfold find_smarter_every_days_satellite
  show (loadSats [recA]).map _ = _
  rw [show loadSats [recA] = some [satA] from rfl]
  show some ((rankCandidates (collectCandidates [satA])).take 5) = _
  rw [collect_single_A]
  rfl

theorem find_abort :
    find_smarter_every_days_satellite [recBad, recA] = none := rfl

/-! ### The state-passing form agrees with the direct embedding -/

theorem loadSatsStore_fst (gp : List OmmRecord) : (loadSatsStore gp).1 = gp := by
  induction gp with
  | nil => rfl
  | cons r rs ih => simp only [loadSatsStore, ih]

theorem loadSatsStore_snd (gp : List OmmRecord) :
    (loadSatsStore gp).2 = loadSats gp := by
  induction gp with
  | nil => rfl
  | cons r rs ih => simp only [loadSatsStore, loadSats, ih]

theorem rankLoop_fst (sats : List EarthSatellite) (acc : List Candidate) :
    (rankLoop sats acc).1 = sats := by
  induction sats generalizing acc with
  | nil => rfl
  | cons s rest ih => simp only [rankLoop, ih]

theorem rankLoop_snd (sats : List EarthSatellite) (acc : List Candidate) :
    (rankLoop sats acc).2 = acc ++ collectCandidates sats := by
  induction sats generalizing acc with
  | nil => simp [rankLoop, collectCandidates]
  | cons s rest ih =>
    cases h : evalCandidate s with
    | none =>
      simp only [rankLoop, h, ih, collectCandidates, List.filterMap_cons]
    | some c =>
      simp only [rankLoop, h, ih, collectCandidates, List.filterMap_cons,
        List.append_assoc, List.singleton_append]

/-! ### C1: per-record failure isolation -/

/-- C1 (counterexample): in `find_smarter_every_days_satellite` a record
whose satellite model fails to construct is not isolated: with the
malformed `recBad` in the batch, the routine aborts and produces no output
at all, although the remaining record `recA` is ranked when presented on
its own. -/
theorem C1_batch_abort_cex :
    find_smarter_every_days_satellite [recBad, recA] = none ∧
      find_smarter_every_days_satellite [recA] = some [candA] :=
  ⟨find_abort, find_single_A⟩

/-- C1 (amended): a model-construction failure aborts the whole ranking
batch, so no remaining record is evaluated; per-record isolation (skip the
failing record, keep evaluating every other record) is implemented only in
`process_tle_with_skyfield`. -/
theorem C1_isolation_amended :
    (∀ gp : List OmmRecord, (∃ r ∈ gp, r.malformed = true) →
      find_smarter_every_days_satellite gp = none) ∧
    (∀ (xs ys : List TleSat) (bad : TleSat), evalTleSat bad = none →
      process_tle_with_skyfield (xs ++ bad :: ys) =
        process_tle_with_skyfield xs ++ process_tle_with_skyfield ys) := by
  constructor
  · intro gp h
    unfold find_smarter_every_days_satellite
    rw [loadSats_none h]
    rfl
  · intro xs ys bad hbad
    induction xs with
    | nil =>
      simp only [List.nil_append, process_tle_with_skyfield, hbad]
    | cons x xs ih =>
      cases hx : evalTleSat x with
      | none =>
        simp only [List.cons_append, process_tle_with_skyfield, hx]
        exact ih
      | some info =>
        simp only [List.cons_append, process_tle_with_skyfield, hx]
        exact congrArg (info :: ·) ih

/-- C1 witness: the amended statement at concrete batches. -/
theorem C1_isolation_amended_witness :
    find_smarter_every_days_satellite [recBad, recA] = none ∧
      process_tle_with_skyfield ([tleGood] ++ tleBad :: [tleGood]) =
        process_tle_with_skyfield [tleGood] ++
          process_tle_with_skyfield [tleGood] :=
  ⟨C1_isolation_amended.1 [recBad, recA]
      ⟨recBad, List.mem_cons_self recBad [recA], rfl⟩,
    C1_isolation_amended.2 [tleGood] [tleGood] tleBad rfl⟩

/-! ### C2: the visibility and range filter -/

/-- C2: every candidate the routine outputs has altitude strictly greater
than 0 degrees and slant range strictly less than 10000 km, and a satellite
with altitude at most 0 or range at least 10000 is discarded by the loop
body: the keep-filter is the conjunction of both strict conditions. -/
theorem C2_filter_conjunction :
    (∀ (gp : List OmmRecord) (out : List Candidate),
      find_smarter_every_days_satellite gp = some out →
      ∀ c ∈ out, 0 < c.alt ∧ c.distance < 10000) ∧
    (∀ sat : EarthSatellite, sat.altDeg ≤ 0 ∨ 10000 ≤ sat.distKm →
      evalCandidate sat = none) := by
  constructor
  · intro gp out hfind c hc
    unfold find_smarter_every_days_satellite at hfind
    cases hl : loadSats gp with
    | none => rw [hl] at hfind; cases hfind
    | some sats =>
      rw [hl] at hfind
      have hfind2 : some ((rankCandidates (collectCandidates sats)).take 5) =
          some out := hfind
      injection hfind2 with hout
      rw [← hout] at hc
      have hc2 : c ∈ rankCandidates (collectCandidates sats) :=
        List.mem_of_mem_take hc
      have hc3 : c ∈ collectCandidates sats :=
        (List.perm_insertionSort sepLe (collectCandidates sats)).mem_iff.mp hc2
      have h := mem_collectCandidates hc3
      exact ⟨h.1, h.2.1⟩
  · exact fun sat h => evalCandidate_discard h

/-- C2 witness: the filter bound applied to a concrete output candidate. -/
theorem C2_filter_conjunction_witness :
    0 < candA.alt ∧ candA.distance < 10000 :=
  C2_filter_conjunction.1 [recA] [candA] find_single_A candA
    (List.mem_singleton.mpr rfl)

/-! ### C3: output sorted ascending by separation -/

/-- C3: the output sequence is sorted ascending by angular separation from
the sun direction: any two adjacent output candidates satisfy
`sep i ≤ sep (i+1)`. -/
theorem C3_output_sorted (gp : List OmmRecord) (out : List Candidate)
    (hfind : find_smarter_every_days_satellite gp = some out)
    (i : ℕ) (hi : i + 1 < out.length) :
    (out.get ⟨i, Nat.lt_of_succ_lt hi⟩).sep ≤ (out.get ⟨i + 1, hi⟩).sep := by
  have hsorted : out.Sorted sepLe := by
    unfold find_smarter_every_days_satellite at hfind
    cases hl : loadSats gp with
    | none => rw [hl] at hfind; cases hfind
    | some sats =>
      rw [hl] at hfind
      have hfind2 : some ((rankCandidates (collectCandidates sats)).take 5) =
          some out := hfind
      injection hfind2 with hout
      rw [← hout]
      have hs : (rankCandidates (collectCandidates sats)).Pairwise sepLe :=
        List.sorted_insertionSort sepLe (collectCandidates sats)
      exact hs.sublist (List.take_sublist 5 _)
  exact hsorted.rel_get_of_lt (Fin.mk_lt_mk.mpr (Nat.lt_succ_self i))

/-- C3 witness: the sortedness bound at a concrete two-candidate output. -/
theorem C3_output_sorted_witness :
    (([candA, candB] : List Candidate).get ⟨0, by simp⟩).sep ≤
      (([candA, candB] : List Candidate).get ⟨1, by simp⟩).sep :=
  C3_output_sorted [recA, recB] [candA, candB] find_pair 0 (by simp)

/-! ### C4: at most five candidates, empty in gives empty out -/

/-- C4: the routine outputs at most five candidates, each carrying a
separation recomputed from its own stored altitude and azimuth against the
sun direction, and the empty input collection yields the empty output
rather than an error. -/
theorem C4_top5_and_empty :
    (∀ (gp : List OmmRecord) (out : List Candidate),
      find_smarter_every_days_satellite gp = some out →
      out.length ≤ 5 ∧ ∀ c ∈ out,
        c.sep = angular_separation SUN_ALT SUN_AZ c.alt c.az) ∧
    find_smarter_every_days_satellite [] = some [] := by
  constructor
  · intro gp out hfind
    unfold find_smarter_every_days_satellite at hfind
    cases hl : loadSats gp with
    | none => rw [hl] at hfind; cases hfind
    | some sats =>
      rw [hl] at hfind
      have hfind2 : some ((rankCandidates (collectCandidates sats)).take 5) =
          some out := hfind
      injection hfind2 with hout
      constructor
      · rw [← hout, List.length_take]
        exact min_le_left 5 _
      · intro c hc
        rw [← hout] at hc
        have hc2 : c ∈ rankCandidates (collectCandidates sats) :=
          List.mem_of_mem_take hc
        have hc3 : c ∈ collectCandidates sats :=
          (List.perm_insertionSort sepLe (collectCandidates sats)).mem_iff.mp
            hc2
        exact (mem_collectCandidates hc3).2.2
  · rfl

/-- C4 witness: the top-five bound at a concrete output. -/
theorem C4_top5_and_empty_witness :
    ([candA] : List Candidate).length ≤ 5 ∧
      ∀ c ∈ ([candA] : List Candidate),
        c.sep = angular_separation SUN_ALT SUN_AZ c.alt c.az :=
  C4_top5_and_empty.1 [recA] [candA] find_single_A

/-! ### Numeric interval bounds for the C5 scenario -/

/-- Auxiliary half-angle identity used to bound the haversine value. -/
theorem cos_double_as_sin_sq (x : ℝ) :
    Real.cos (2 * x) = 1 - 2 * Real.sin x ^ 2 := by
  rw [Real.cos_two_mul, Real.cos_sq']
  ring

/-- The squared half-angle sine in terms of the cosine of the angle. -/
theorem sin_sq_half_eq (x : ℝ) :
    Real.sin (x / 2) ^ 2 = (1 - Real.cos x) / 2 := by
  have h := cos_double_as_sin_sq (x / 2)
  rw [show 2 * (x / 2) = x by ring] at h
  linarith

/-- Lower Taylor bound for the sine on [0, 1]. -/
theorem sin_lb {x : ℝ} (h0 : 0 ≤ x) (h1 : x ≤ 1) :
    x - x ^ 3 / 6 - x ^ 4 * (5 / 96) ≤ Real.sin x := by
  have hb := Real.sin_bound (x := x) (by rwa [abs_of_nonneg h0])
  rw [abs_of_nonneg h0] at hb
  have h := abs_le.mp hb
  linarith [h.1]

/-- Upper Taylor bound for the sine on [0, 1]. -/
theorem sin_ub {x : ℝ} (h0 : 0 ≤ x) (h1 : x ≤ 1) :
    Real.sin x ≤ x - x ^ 3 / 6 + x ^ 4 * (5 / 96) := by
  have hb := Real.sin_bound (x := x) (by rwa [abs_of_nonneg h0])
  rw [abs_of_nonneg h0] at hb
  have h := abs_le.mp hb
  linarith [h.2]

/-- Interval propagation for the sine: rational bounds on the argument give
rational bounds on the value. -/
theorem sin_interval {x lo hi : ℝ} (hlo0 : 0 ≤ lo) (hlo : lo ≤ x)
    (hhi : x ≤ hi) (h1 : hi ≤ 1) :
    lo - hi ^ 3 / 6 - hi ^ 4 * (5 / 96) ≤ Real.sin x ∧
      Real.sin x ≤ hi - lo ^ 3 / 6 + hi ^ 4 * (5 / 96) := by
  have hx0 : 0 ≤ x := le_trans hlo0 hlo
  have hx1 : x ≤ 1 := le_trans hhi h1
  have hcube_le : x ^ 3 ≤ hi ^ 3 := pow_le_pow_left₀ hx0 hhi 3
  have hcube_ge : lo ^ 3 ≤ x ^ 3 := pow_le_pow_left₀ hlo0 hlo 3
  have hq : x ^ 4 ≤ hi ^ 4 := pow_le_pow_left₀ hx0 hhi 4
  constructor
  · have h := sin_lb hx0 hx1
    linarith
  · have h := sin_ub hx0 hx1
    linarith

theorem sin_1deg_bounds :
    0.0174523 ≤ Real.sin (Real.pi / 180) ∧
      Real.sin (Real.pi / 180) ≤ 0.0174525 := by
  have h1 := Real.pi_gt_d6
  have h2 := Real.pi_lt_d6
  have hlo : (0.0174532 : ℝ) ≤ Real.pi / 180 := by linarith
  have hhi : Real.pi / 180 ≤ 0.0174533 := by linarith
  obtain ⟨l, u⟩ := sin_interval (by norm_num) hlo hhi (by norm_num)
  constructor
  · refine le_trans ?_ l
    norm_num
  · refine le_trans u ?_
    norm_num

theorem sin_11direction_bounds :
    0.0191974 ≤ Real.sin (11 * Real.pi / 1800) ∧
      Real.sin (11 * Real.pi / 1800) ≤ 0.0191976 := by
  have h1 := Real.pi_gt_d6
  have h2 := Real.pi_lt_d6
  have hlo : (0.0191986 : ℝ) ≤ 11 * Real.pi / 1800 := by linarith
  have hhi : 11 * Real.pi / 1800 ≤ 0.0191987 := by linarith
  obtain ⟨l, u⟩ := sin_interval (by norm_num) hlo hhi (by norm_num)
  constructor
  · refine le_trans ?_ l
    norm_num
  · refine le_trans u ?_
    norm_num

theorem sin_half57_bounds :
    0.4737177 ≤ Real.sin (57 * Real.pi / 360) ∧
      Real.sin (57 * Real.pi / 360) ≤ 0.4800951 := by
  have h1 := Real.pi_gt_d6
  have h2 := Real.pi_lt_d6
  have hlo : (0.4974187 : ℝ) ≤ 57 * Real.pi / 360 := by linarith
  have hhi : 57 * Real.pi / 360 ≤ 0.4974189 := by linarith
  obtain ⟨l, u⟩ := sin_interval (by norm_num) hlo hhi (by norm_num)
  constructor
  · refine le_trans ?_ l
    norm_num
  · refine le_trans u ?_
    norm_num

theorem sin_half55_bounds :
    0.4587732 ≤ Real.sin (55 * Real.pi / 360) ∧
      Real.sin (55 * Real.pi / 360) ≤ 0.4643017 := by
  have h1 := Real.pi_gt_d6
  have h2 := Real.pi_lt_d6
  have hlo : (0.4799654 : ℝ) ≤ 55 * Real.pi / 360 := by linarith
  have hhi : 55 * Real.pi / 360 ≤ 0.4799656 := by linarith
  obtain ⟨l, u⟩ := sin_interval (by norm_num) hlo hhi (by norm_num)
  constructor
  · refine le_trans ?_ l
    norm_num
  · refine le_trans u ?_
    norm_num

theorem cos57_eq :
    Real.cos (radians 57) = 1 - 2 * Real.sin (57 * Real.pi / 360) ^ 2 := by
  unfold radians
  rw [show (57 : ℝ) * (Real.pi / 180) = 2 * (57 * Real.pi / 360) by ring,
    cos_double_as_sin_sq]

theorem cos55_eq :
    Real.cos (radians 55) = 1 - 2 * Real.sin (55 * Real.pi / 360) ^ 2 := by
  unfold radians
  rw [show (55 : ℝ) * (Real.pi / 180) = 2 * (55 * Real.pi / 360) by ring,
    cos_double_as_sin_sq]

theorem cos57_bounds :
    0.539017 ≤ Real.cos (radians 57) ∧ Real.cos (radians 57) ≤ 0.551184 := by
  rw [cos57_eq]
  obtain ⟨l, u⟩ := sin_half57_bounds
  have h0 : (0 : ℝ) ≤ Real.sin (57 * Real.pi / 360) := by linarith
  have hsq_ub : Real.sin (57 * Real.pi / 360) ^ 2 ≤ 0.4800951 ^ 2 := by
    nlinarith
  have hsq_lb : (0.4737177 : ℝ) ^ 2 ≤ Real.sin (57 * Real.pi / 360) ^ 2 := by
    nlinarith
  constructor <;> nlinarith

theorem cos55_bounds :
    0.568847 ≤ Real.cos (radians 55) ∧ Real.cos (radians 55) ≤ 0.579055 := by
  rw [cos55_eq]
  obtain ⟨l, u⟩ := sin_half55_bounds
  have h0 : (0 : ℝ) ≤ Real.sin (55 * Real.pi / 360) := by linarith
  have hsq_ub : Real.sin (55 * Real.pi / 360) ^ 2 ≤ 0.4643017 ^ 2 := by
    nlinarith
  have hsq_lb : (0.4587732 : ℝ) ^ 2 ≤ Real.sin (55 * Real.pi / 360) ^ 2 := by
    nlinarith
  constructor <;> nlinarith

/-- The haversine value of the C5 scenario, rewritten with positive
arguments. -/
theorem hav_c5_eq : haversine_a 57 209.2 55 207 =
    Real.sin (Real.pi / 180) ^ 2 +
      Real.cos (radians 57) * Real.cos (radians 55) *
        Real.sin (11 * Real.pi / 1800) ^ 2 := by
  unfold haversine_a
  have e1 : (radians 55 - radians 57) / 2 = -(Real.pi / 180) := by
    unfold radians
    ring
  have e2 : (radians 207 - radians 209.2) / 2 = -(11 * Real.pi / 1800) := by
    unfold radians
    norm_num
    ring
  rw [e1, e2, Real.sin_neg, Real.sin_neg]
  ring

theorem hav_c5_bounds :
    0.0004175 ≤ haversine_a 57 209.2 55 207 ∧
      haversine_a 57 209.2 55 207 ≤ 0.0004223 := by
  rw [hav_c5_eq]
  obtain ⟨hs1l, hs1u⟩ := sin_1deg_bounds
  obtain ⟨hs2l, hs2u⟩ := sin_11direction_bounds
  obtain ⟨hc1l, hc1u⟩ := cos57_bounds
  obtain ⟨hc2l, hc2u⟩ := cos55_bounds
  have hs1_0 : (0 : ℝ) ≤ Real.sin (Real.pi / 180) := by linarith
  have hs2_0 : (0 : ℝ) ≤ Real.sin (11 * Real.pi / 1800) := by linarith
  have hc1_0 : (0 : ℝ) ≤ Real.cos (radians 57) := by linarith
  have hc2_0 : (0 : ℝ) ≤ Real.cos (radians 55) := by linarith
  have hs1sq : 0.000304582 ≤ Real.sin (Real.pi / 180) ^ 2 ∧
      Real.sin (Real.pi / 180) ^ 2 ≤ 0.000304590 := by
    constructor <;> nlinarith
  have hs2sq : 0.000368540 ≤ Real.sin (11 * Real.pi / 1800) ^ 2 ∧
      Real.sin (11 * Real.pi / 1800) ^ 2 ≤ 0.000368548 := by
    constructor <;> nlinarith
  have hprod : 0.306618 ≤ Real.cos (radians 57) * Real.cos (radians 55) ∧
      Real.cos (radians 57) * Real.cos (radians 55) ≤ 0.319166 := by
    constructor <;> nlinarith
  have hterm : 0.000113 ≤ Real.cos (radians 57) * Real.cos (radians 55) *
        Real.sin (11 * Real.pi / 1800) ^ 2 ∧
      Real.cos (radians 57) * Real.cos (radians 55) *
        Real.sin (11 * Real.pi / 1800) ^ 2 ≤ 0.00011763 := by
    obtain ⟨hpl, hpu⟩ := hprod
    obtain ⟨hql, hqu⟩ := hs2sq
    have hp0 : (0 : ℝ) ≤ Real.cos (radians 57) * Real.cos (radians 55) :=
      mul_nonneg hc1_0 hc2_0
    have hq0 : (0 : ℝ) ≤ Real.sin (11 * Real.pi / 1800) ^ 2 := sq_nonneg _
    constructor <;> nlinarith
  constructor
  · linarith [hs1sq.1, hterm.1]
  · linarith [hs1sq.2, hterm.2]

theorem sqrt_c5_bounds :
    0.02043 ≤ Real.sqrt (haversine_a 57 209.2 55 207) ∧
      Real.sqrt (haversine_a 57 209.2 55 207) ≤ 0.02055 := by
  obtain ⟨hl, hu⟩ := hav_c5_bounds
  constructor
  · rw [show (0.02043 : ℝ) = Real.sqrt (0.02043 ^ 2) from
      (Real.sqrt_sq (by norm_num)).symm]
    apply Real.sqrt_le_sqrt
    nlinarith
  · rw [show (0.02055 : ℝ) = Real.sqrt (0.02055 ^ 2) from
      (Real.sqrt_sq (by norm_num)).symm]
    apply Real.sqrt_le_sqrt
    nlinarith

theorem arcsin_c5_bounds :
    0.02043 ≤ Real.arcsin (Real.sqrt (haversine_a 57 209.2 55 207)) ∧
      Real.arcsin (Real.sqrt (haversine_a 57 209.2 55 207)) ≤ 0.020553 := by
  have hpi1 := Real.pi_gt_d6
  have hpi2 := Real.pi_lt_d6
  obtain ⟨hsl, hsu⟩ := sqrt_c5_bounds
  constructor
  · have hs : Real.sin 0.02043 ≤ Real.sqrt (haversine_a 57 209.2 55 207) :=
      le_trans (le_of_lt (Real.sin_lt (by norm_num))) hsl
    have hmono := Real.monotone_arcsin hs
    rwa [Real.arcsin_sin (by linarith) (by linarith)] at hmono
  · have hsinU : (0.02055 : ℝ) ≤ Real.sin 0.020553 := by
      have h := sin_lb (x := 0.020553) (by norm_num) (by norm_num)
      refine le_trans ?_ h
      norm_num
    have hs : Real.sqrt (haversine_a 57 209.2 55 207) ≤ Real.sin 0.020553 :=
      le_trans hsu hsinU
    have hmono := Real.monotone_arcsin hs
    rwa [Real.arcsin_sin (by linarith) (by linarith)] at hmono

/-- The separation of the C5 scenario is between 2.34 and 2.36 degrees. -/
theorem sep_c5_bounds :
    2.34 < angular_separation 57 209.2 55 207 ∧
      angular_separation 57 209.2 55 207 < 2.36 := by
  have hpi1 := Real.pi_gt_d6
  have hpi2 := Real.pi_lt_d6
  have hpipos := Real.pi_pos
  obtain ⟨hal, hau⟩ := arcsin_c5_bounds
  unfold angular_separation degrees
  constructor
  · rw [show 2 * Real.arcsin (Real.sqrt (haversine_a 57 209.2 55 207)) *
        (180 / Real.pi) =
        180 * (2 * Real.arcsin (Real.sqrt (haversine_a 57 209.2 55 207))) /
          Real.pi by ring, lt_div_iff₀ hpipos]
    nlinarith
  · rw [show 2 * Real.arcsin (Real.sqrt (haversine_a 57 209.2 55 207)) *
        (180 / Real.pi) =
        180 * (2 * Real.arcsin (Real.sqrt (haversine_a 57 209.2 55 207))) /
          Real.pi by ring, div_lt_iff₀ hpipos]
    nlinarith

/-- C5 (counterexample): at the spec scenario — sun direction (57.0, 209.2)
and candidate direction (55.0, 207.0) — the separation computed by the
haversine routine is below 2.4 degrees, so it is not approximately 2.55
degrees. -/
theorem C5_scenario_cex :
    angular_separation SUN_ALT SUN_AZ 55 207 < 2.4 := by
  have h : SUN_ALT = (57 : ℝ) := by
    unfold SUN_ALT
    norm_num
  rw [h, show SUN_AZ = (209.2 : ℝ) from rfl]
  have hb := sep_c5_bounds.2
  linarith

/-- C5 (amended): at the spec scenario the separation is approximately 2.35
degrees — strictly between 2.34 and 2.36 — rather than 2.55; and for a
candidate exactly at the sun direction the haversine intermediate value is
exactly 0 and the separation is exactly 0, the embedding being total there
(sqrt and arcsin are defined at 0). -/
theorem C5_scenario_amended :
    (2.34 < angular_separation SUN_ALT SUN_AZ 55 207 ∧
      angular_separation SUN_ALT SUN_AZ 55 207 < 2.36) ∧
    haversine_a SUN_ALT SUN_AZ 57.0 209.2 = 0 ∧
    angular_separation SUN_ALT SUN_AZ 57.0 209.2 = 0 := by
  refine ⟨?_, ?_, ?_⟩
  · have h : SUN_ALT = (57 : ℝ) := by
      unfold SUN_ALT
      norm_num
    rw [h, show SUN_AZ = (209.2 : ℝ) from rfl]
    exact sep_c5_bounds
  · exact haversine_a_self 57.0 209.2
  · exact angular_separation_self 57.0 209.2

/-! ### C6: symmetry of the angular separation -/

/-- C6: the angular separation is symmetric in its two input directions. -/
theorem C6_separation_symm (alt1 az1 alt2 az2 : ℝ) :
    angular_separation alt1 az1 alt2 az2 =
      angular_separation alt2 az2 alt1 az1 := by
  unfold angular_separation haversine_a
  have h : ∀ x y : ℝ, Real.sin ((x - y) / 2) ^ 2 =
      Real.sin ((y - x) / 2) ^ 2 := by
    intro x y
    rw [show (x - y) / 2 = -((y - x) / 2) by ring, Real.sin_neg]
    ring
  rw [h (radians alt2) (radians alt1), h (radians az2) (radians az1),
    mul_comm (Real.cos (radians alt1)) (Real.cos (radians alt2))]

/-! ### C7: the separation lies in [0, 180] degrees -/

/-- The haversine value is nonnegative when both altitudes lie in
[-90, 90]. -/
theorem haversine_a_nonneg {alt1 az1 alt2 az2 : ℝ}
    (hc1 : 0 ≤ Real.cos (radians alt1)) (hc2 : 0 ≤ Real.cos (radians alt2)) :
    0 ≤ haversine_a alt1 az1 alt2 az2 := by
  unfold haversine_a
  have hs1 := sq_nonneg (Real.sin ((radians alt2 - radians alt1) / 2))
  have hs2 := sq_nonneg (Real.sin ((radians az2 - radians az1) / 2))
  nlinarith [mul_nonneg hc1 hc2]

/-- The haversine value is at most 1 when both altitudes lie in
[-90, 90]. -/
theorem haversine_a_le_one {alt1 az1 alt2 az2 : ℝ}
    (hc1 : 0 ≤ Real.cos (radians alt1)) (hc2 : 0 ≤ Real.cos (radians alt2)) :
    haversine_a alt1 az1 alt2 az2 ≤ 1 := by
  unfold haversine_a
  rw [sin_sq_half_eq, sin_sq_half_eq,
    Real.cos_sub (radians alt2) (radians alt1)]
  have hadd : Real.cos (radians alt2) * Real.cos (radians alt1) -
      Real.sin (radians alt2) * Real.sin (radians alt1) ≤ 1 := by
    rw [← Real.cos_add]
    exact Real.cos_le_one _
  have hd : -1 ≤ Real.cos (radians az2 - radians az1) :=
    Real.neg_one_le_cos _
  nlinarith [mul_nonneg (mul_nonneg hc1 hc2)
    (by linarith : 0 ≤ 1 + Real.cos (radians az2 - radians az1))]

/-- C7: for input altitudes in [-90, 90] and azimuths in [0, 360), the
separation is between 0 and 180 degrees. -/
theorem C7_separation_bounds (alt1 az1 alt2 az2 : ℝ)
    (h1 : -90 ≤ alt1) (h2 : alt1 ≤ 90) (h3 : -90 ≤ alt2) (h4 : alt2 ≤ 90)
    (h5 : 0 ≤ az1) (h6 : az1 < 360) (h7 : 0 ≤ az2) (h8 : az2 < 360) :
    0 ≤ angular_separation alt1 az1 alt2 az2 ∧
      angular_separation alt1 az1 alt2 az2 ≤ 180 := by
  have pi_pos := Real.pi_pos
  have hc1 : 0 ≤ Real.cos (radians alt1) := by
    apply Real.cos_nonneg_of_neg_pi_div_two_le_of_le
    · unfold radians; nlinarith
    · unfold radians; nlinarith
  have hc2 : 0 ≤ Real.cos (radians alt2) := by
    apply Real.cos_nonneg_of_neg_pi_div_two_le_of_le
    · unfold radians; nlinarith
    · unfold radians; nlinarith
  have ha0 : 0 ≤ haversine_a alt1 az1 alt2 az2 := haversine_a_nonneg hc1 hc2
  have ha1 : haversine_a alt1 az1 alt2 az2 ≤ 1 := haversine_a_le_one hc1 hc2
  have hsq0 : 0 ≤ Real.sqrt (haversine_a alt1 az1 alt2 az2) :=
    Real.sqrt_nonneg _
  have hsq1 : Real.sqrt (haversine_a alt1 az1 alt2 az2) ≤ 1 := by
    rw [show (1 : ℝ) = Real.sqrt 1 from (Real.sqrt_one).symm]
    exact Real.sqrt_le_sqrt ha1
  have harc0 : 0 ≤ Real.arcsin (Real.sqrt (haversine_a alt1 az1 alt2 az2)) :=
    Real.arcsin_nonneg.mpr hsq0
  have harc1 : Real.arcsin (Real.sqrt (haversine_a alt1 az1 alt2 az2)) ≤
      Real.pi / 2 := Real.arcsin_le_pi_div_two _
  unfold angular_separation degrees
  constructor
  · apply mul_nonneg (by linarith)
    positivity
  · have h2arc : 2 * Real.arcsin (Real.sqrt
        (haversine_a alt1 az1 alt2 az2)) ≤ Real.pi := by linarith
    calc 2 * Real.arcsin (Real.sqrt (haversine_a alt1 az1 alt2 az2)) *
          (180 / Real.pi) ≤ Real.pi * (180 / Real.pi) := by
          apply mul_le_mul_of_nonneg_right h2arc
          positivity
      _ = 180 := by field_simp

/-- C7 witness: the bounds at a concrete direction pair. -/
theorem C7_separation_bounds_witness :
    0 ≤ angular_separation 57.0 209.2 90 0 ∧
      angular_separation 57.0 209.2 90 0 ≤ 180 :=
  C7_separation_bounds 57.0 209.2 90 0 (by norm_num) (by norm_num)
    (by norm_num) (by norm_num) (by norm_num) (by norm_num) (by norm_num)
    (by norm_num)

/-! ### C8: permutation invariance of the output -/

/-- C8 (counterexample): two distinct records observed at the same position
tie on separation; the stable sort keeps them in input order, so swapping
the input records swaps the output sequence. -/
theorem C8_perm_cex :
    find_smarter_every_days_satellite [recA, recTie] ≠
      find_smarter_every_days_satellite [recTie, recA] := by
  rw [find_tie_AT, find_tie_TA]
  intro h
  injection h with h
  injection h with h1 _
  have hname : satA.objectName = satTie.objectName :=
    congrArg (fun c : Candidate => c.sat.objectName) h1
  exact absurd hname (by decide)

/-- C8 (amended): the output is invariant under permutation of the input
collection whenever the surviving candidates carry pairwise-distinct
separations (no ties); with ties the stable sort preserves processing
order, so permuting the input can change the output sequence. -/
theorem C8_perm_amended (gp gp2 : List OmmRecord)
    (hperm : List.Perm gp2 gp)
    (hsep : (collectCandidates (gp.map satOfRecord)).Pairwise
      fun a b => a.sep ≠ b.sep) :
    find_smarter_every_days_satellite gp2 =
      find_smarter_every_days_satellite gp := by
  have hsymm : ∀ {a b : Candidate}, a.sep ≠ b.sep → b.sep ≠ a.sep :=
    fun h => Ne.symm h
  by_cases hgood : ∀ r ∈ gp, r.malformed = false
  · have hgood2 : ∀ r ∈ gp2, r.malformed = false :=
      fun r hr => hgood r (hperm.mem_iff.mp hr)
    unfold find_smarter_every_days_satellite
    rw [loadSats_all_good hgood, loadSats_all_good hgood2]
    have hcperm : List.Perm (collectCandidates (gp2.map satOfRecord))
        (collectCandidates (gp.map satOfRecord)) := by
      unfold collectCandidates
      exact (hperm.map satOfRecord).filterMap evalCandidate
    have hne2 : (collectCandidates (gp2.map satOfRecord)).Pairwise
        fun a b => a.sep ≠ b.sep :=
      (hcperm.pairwise_iff hsymm).mpr hsep
    have hrank : rankCandidates (collectCandidates (gp2.map satOfRecord)) =
        rankCandidates (collectCandidates (gp.map satOfRecord)) := by
      unfold rankCandidates
      have hp : List.Perm (List.insertionSort sepLe
            (collectCandidates (gp2.map satOfRecord)))
          (List.insertionSort sepLe (collectCandidates (gp.map satOfRecord))) :=
        ((List.perm_insertionSort sepLe _).trans hcperm).trans
          (List.perm_insertionSort sepLe _).symm
      have hs1 : (List.insertionSort sepLe
          (collectCandidates (gp.map satOfRecord))).Pairwise sepLt := by
        have hle := List.sorted_insertionSort sepLe
          (collectCandidates (gp.map satOfRecord))
        have hne1 := ((List.perm_insertionSort sepLe
          (collectCandidates (gp.map satOfRecord))).pairwise_iff hsymm).mpr
          hsep
        exact (hle.and hne1).imp fun h => lt_of_le_of_ne h.1 h.2
      have hs2 : (List.insertionSort sepLe
          (collectCandidates (gp2.map satOfRecord))).Pairwise sepLt := by
        have hle := List.sorted_insertionSort sepLe
          (collectCandidates (gp2.map satOfRecord))
        have hne1 := ((List.perm_insertionSort sepLe
          (collectCandidates (gp2.map satOfRecord))).pairwise_iff hsymm).mpr
          hne2
        exact (hle.and hne1).imp fun h => lt_of_le_of_ne h.1 h.2
      exact List.eq_of_perm_of_sorted hp hs2 hs1
    show some ((rankCandidates
        (collectCandidates (gp2.map satOfRecord))).take 5) =
      some ((rankCandidates (collectCandidates (gp.map satOfRecord))).take 5)
    rw [hrank]
  · push_neg at hgood
    obtain ⟨r, hr, hmal⟩ := hgood
    have hmal2 : r.malformed = true := by
      cases hb : r.malformed
      · exact absurd hb hmal
      · rfl
    unfold find_smarter_every_days_satellite
    rw [loadSats_none ⟨r, hr, hmal2⟩,
      loadSats_none ⟨r, hperm.mem_iff.mpr hr, hmal2⟩]

/-- C8 witness: the amended statement at a concrete tie-free batch. -/
theorem C8_perm_amended_witness :
    find_smarter_every_days_satellite [recB, recA] =
      find_smarter_every_days_satellite [recA, recB] :=
  C8_perm_amended [recA, recB] [recB, recA] (List.Perm.swap recA recB []) (by
    have hc : collectCandidates ([recA, recB].map satOfRecord) =
        [candA, candB] := collect_pair
    rw [hc]
    exact List.pairwise_pair.mpr (by rw [candA_sep, candB_sep]; norm_num))

/-! ### C9: the routine does not mutate its input records -/

/-- C9: run in state-passing form, the record store after the run is the
input collection unchanged, the output agrees with the direct embedding,
and each loop iteration hands its satellite back to the store unchanged:
all derived quantities are recomputed into fresh candidates, never written
back into the records. -/
theorem C9_no_mutation :
    (∀ gp : List OmmRecord, (findWithStore gp).1 = gp) ∧
    (∀ gp : List OmmRecord,
      (findWithStore gp).2 = find_smarter_every_days_satellite gp) ∧
    (∀ (sats : List EarthSatellite) (acc : List Candidate),
      (rankLoop sats acc).1 = sats) := by
  refine ⟨?_, ?_, rankLoop_fst⟩
  · intro gp
    unfold findWithStore
    exact loadSatsStore_fst gp
  · intro gp
    show ((loadSatsStore gp).2.map fun sats =>
        (rankCandidates (rankLoop sats []).2).take 5) =
      (loadSats gp).map fun sats =>
        (rankCandidates (collectCandidates sats)).take 5
    rw [loadSatsStore_snd]
    cases hl : loadSats gp with
    | none => rfl
    | some sats =>
      show some ((rankCandidates (rankLoop sats []).2).take 5) =
        some ((rankCandidates (collectCandidates sats)).take 5)
      rw [rankLoop_snd, List.nil_append]

/-! ### C10: the ranking sort is tie-stable -/

/-- C10: two surviving candidates with equal separation occur in the ranked
order exactly as the loop produced them, which is input order; the routine
outputs the first five entries of that ranked order. -/
theorem C10_tie_stable (gp : List OmmRecord) (sats : List EarthSatellite)
    (hload : loadSats gp = some sats) (c1 c2 : Candidate)
    (hsub : List.Sublist [c1, c2] (collectCandidates sats))
    (heq : c1.sep = c2.sep) :
    List.Sublist [c1, c2] (rankCandidates (collectCandidates sats)) ∧
      find_smarter_every_days_satellite gp =
        some ((rankCandidates (collectCandidates sats)).take 5) := by
  constructor
  · unfold rankCandidates
    exact List.pair_sublist_insertionSort (le_of_eq heq) hsub
  · unfold find_smarter_every_days_satellite
    rw [hload]
    rfl

/-- C10 witness: the stability statement at a concrete tied batch. -/
theorem C10_tie_stable_witness :
    List.Sublist [candA, candTie]
        (rankCandidates (collectCandidates [satA, satTie])) ∧
      find_smarter_every_days_satellite [recA, recTie] =
        some ((rankCandidates (collectCandidates [satA, satTie])).take 5) :=
  C10_tie_stable [recA, recTie] [satA, satTie] loadSats_tie_AT candA candTie
    (by rw [collect_tie_AT])
    (by rw [candA_sep, candTie_sep])

end

end SpaceTrack
